import Mathlib

set_option autoImplicit false

/-
Verification of the line-item extraction and product-ranking pipeline
(src/product_processor.py) against its natural-language specification.

The Python source is shallowly embedded:
  - JSON values (the payloads handled by json.loads and the item dicts)
    become the inductive type `Json`; Python floats become rationals.
  - The three caught exception kinds of extract_line_items_from_orders
    (json.JSONDecodeError, KeyError, TypeError) and the two uncaught
    kinds that its body can actually produce (ValueError from float(),
    AttributeError from .get on a non-dict) become the type `BErr`;
    an escaping exception is an `Except.error` result of the whole
    function, a caught one is absorbed exactly where the source absorbs
    it (the per-order try/except).
  - pandas DataFrames become lists of records; groupby/sort_values/
    head/index-assignment are modelled operation by operation below.
-/

/-- A JSON value, as produced by json.loads, also standing in for the
native Python values a DataFrame cell can hold. -/
inductive Json where
  | null : Json
  | bool (b : Bool) : Json
  | num (q : ℚ) : Json
  | str (s : String) : Json
  | arr (xs : List Json) : Json
  | obj (fields : List (String × Json)) : Json

/-- The value of the line_items cell of one order row.  A string cell is
represented together with the outcome of json.loads on it: `jstr none`
is a string that fails to parse (json.JSONDecodeError), `jstr (some j)`
is a string parsing to the JSON value j.  `jlist` is a native Python
list (line 30 of the source), `other` is any other type (line 32). -/
inductive LIField where
  | jstr (parsed : Option Json) : LIField
  | jlist (items : List Json) : LIField
  | other : LIField

/-- One row of the orders DataFrame.  `none` in a metadata field models
the column being absent, so that row access raises KeyError. -/
structure OrderRow where
  id : Option Json
  date : Option Json
  channel : Option Json
  line_items : LIField

/-- One element of the all_items list built by the source (lines 37-51):
the flattened transaction line. -/
structure ExtractLine where
  order_id : Json
  order_date : Json
  channel : Json
  line_item_id : Json
  product_id : Json
  variant_id : Json
  sku : Json
  name : Json
  title : Json
  quantity : Json
  price : ℚ
  total_discount : ℚ
  line_total : ℚ

/-- Exception kinds the body of extract_line_items_from_orders can
produce.  keyErr and typeErr (together with the decode failure already
folded into LIField.jstr) are caught by the except clause on line 54;
valueErr and attrErr are not listed there and escape. -/
inductive BErr where
  | keyErr : BErr
  | typeErr : BErr
  | valueErr : BErr
  | attrErr : BErr
deriving DecidableEq

/-- An exception escaping extract_line_items_from_orders. -/
inductive PyErr where
  | valueError : PyErr
  | attributeError : PyErr
deriving DecidableEq

unseal Rat.add Rat.mul Rat.inv Rat.sub

/-- Modelled from the behaviour of CPython float() on a str: an optional
sign followed by decimal digits with at most one point (surrounding
whitespace stripped).  Returns none when float() raises ValueError. -/
def parseFloat? (s : String) : Option ℚ :=
  let cs := ((s.toList.dropWhile Char.isWhitespace).reverse.dropWhile
      Char.isWhitespace).reverse
  let afterSign : Bool × List Char :=
    match cs with
    | '-' :: r => (true, r)
    | '+' :: r => (false, r)
    | r => (false, r)
  let neg := afterSign.1
  let body := afterSign.2
  let intPart := body.takeWhile Char.isDigit
  let rest := body.dropWhile Char.isDigit
  let valOf : List Char → List Char → Option ℚ := fun ip fp =>
    if ip.isEmpty && fp.isEmpty then none
    else
      let iv : ℕ := ip.foldl (fun n c => 10 * n + (c.toNat - 48)) 0
      let fv : ℕ := fp.foldl (fun n c => 10 * n + (c.toNat - 48)) 0
      let q : ℚ := (iv : ℚ) + (fv : ℚ) / ((10 : ℚ) ^ fp.length)
      some (if neg then -q else q)
  match rest with
  | [] => valOf intPart []
  | '.' :: fr =>
      if fr.all Char.isDigit then valOf intPart fr else none
  | _ => none

/-- Python float(v) on a JSON/Python value: numbers and bools convert,
strings go through the string parse (ValueError when that fails), and
None/lists/dicts raise TypeError. -/
def pyFloat (v : Json) : Except BErr ℚ :=
  match v with
  | .num q => .ok q
  | .bool b => .ok (if b then 1 else 0)
  | .str s =>
      match parseFloat? s with
      | some q => .ok q
      | none => .error .valueErr
  | .null => .error .typeErr
  | .arr _ => .error .typeErr
  | .obj _ => .error .typeErr

/-- The numeric value of a JSON value when Python treats it as a number
in float-by-number multiplication (numbers and bools only). -/
def jNum? (v : Json) : Option ℚ :=
  match v with
  | .num q => some q
  | .bool b => some (if b then 1 else 0)
  | _ => none

/-- Python dict.get with a default, on the field list of a JSON object. -/
def jget (fields : List (String × Json)) (k : String) (d : Json) : Json :=
  match fields.find? (fun p => p.1 == k) with
  | some p => p.2
  | none => d

/-- Python iteration over a JSON value (the `for item in items` loop on
line 36): lists yield their elements, dicts their keys, strings their
characters; numbers, bools and None are not iterable (TypeError, which
the except clause catches). -/
def pyIter (j : Json) : Option (List Json) :=
  match j with
  | .arr xs => some xs
  | .obj fs => some (fs.map (fun p => Json.str p.1))
  | .str s => some (s.toList.map (fun c => Json.str (String.mk [c])))
  | _ => none

/-- Building the product_data record for one item (lines 37-51),
evaluating the dict literal entries in source order so that the first
failing operation decides the exception kind:
row metadata access (KeyError when the column is missing), item.get
(AttributeError when the item is not a dict), float() on price and
total_discount (ValueError or TypeError), and finally the
float(price) * quantity product (TypeError on a non-numeric quantity). -/
def buildLine (row : OrderRow) (it : Json) : Except BErr ExtractLine :=
  match row.id with
  | none => .error .keyErr
  | some oid =>
  match row.date with
  | none => .error .keyErr
  | some odate =>
  match row.channel with
  | none => .error .keyErr
  | some ochan =>
  match it with
  | .obj fs =>
      match pyFloat (jget fs ("price") (.num 0)) with
      | .error e => .error e
      | .ok priceV =>
      match pyFloat (jget fs ("total_discount") (.num 0)) with
      | .error e => .error e
      | .ok discV =>
      match jNum? (jget fs ("quantity") (.num 0)) with
      | none => .error .typeErr
      | some qv =>
          .ok { order_id := oid
                order_date := odate
                channel := ochan
                line_item_id := jget fs ("id") .null
                product_id := jget fs ("product_id") .null
                variant_id := jget fs ("variant_id") .null
                sku := jget fs ("sku") (.str ("N/A"))
                name := jget fs ("name") (.str ("Sin nombre"))
                title := jget fs ("title") (jget fs ("name") (.str ("Sin título")))
                quantity := jget fs ("quantity") (.num 0)
                price := priceV
                total_discount := discV
                line_total := priceV * qv }
  | _ => .error .attrErr

/-- The inner `for item in items` loop.  A caught exception ends this
order early but keeps the lines already appended to all_items; an
uncaught one aborts the whole call (all accumulated lines are lost to
the caller because the exception escapes). -/
def processItems (row : OrderRow) : List Json → Except PyErr (List ExtractLine)
  | [] => .ok []
  | it :: rest =>
      match buildLine row it with
      | .ok l =>
          match processItems row rest with
          | .ok ls => .ok (l :: ls)
          | .error e => .error e
      | .error .keyErr => .ok []
      | .error .typeErr => .ok []
      | .error .valueErr => .error .valueError
      | .error .attrErr => .error .attributeError

/-- The body of the per-order try/except (lines 26-56) for one row. -/
def processOrder (row : OrderRow) : Except PyErr (List ExtractLine) :=
  match row.line_items with
  | .jstr none => .ok []
  | .jstr (some j) =>
      match pyIter j with
      | none => .ok []
      | some its => processItems row its
  | .jlist its => processItems row its
  | .other => .ok []

/-- The `for idx, row in df.iterrows()` loop over all orders. -/
def extractRows : List OrderRow → Except PyErr (List ExtractLine)
  | [] => .ok []
  | r :: rs =>
      match processOrder r with
      | .ok ls =>
          match extractRows rs with
          | .ok rest => .ok (ls ++ rest)
          | .error e => .error e
      | .error e => .error e

/-- extract_line_items_from_orders: hasLI models whether the DataFrame
has a line_items column (the guard on line 20 returns an empty frame
when it is missing or the frame has no rows). -/
def extract_line_items_from_orders (hasLI : Bool) (rows : List OrderRow) :
    Except PyErr (List ExtractLine) :=
  if rows.isEmpty || !hasLI then .ok []
  else extractRows rows

/-- A transaction line as consumed by get_top_products: the columns of
items_df that the ranker reads (sku, name, quantity, line_total), with
the numeric columns carrying float values. -/
structure TxLine where
  sku : String
  name : String
  quantity : ℚ
  line_total : ℚ
deriving DecidableEq

/-- A pandas float64 cell as it matters to the pct_total column: NaN and
the two infinities arise from dividing by a zero total (numpy emits
them instead of raising), every other value is a finite number. -/
inductive PFloat where
  | nan : PFloat
  | inf (pos : Bool) : PFloat
  | num (q : ℚ) : PFloat
deriving DecidableEq

/-- IEEE addition on such cells, for summing a pct_total column: NaN
propagates, infinities of opposite sign give NaN. -/
def pAdd (a b : PFloat) : PFloat :=
  match a, b with
  | .nan, _ => .nan
  | _, .nan => .nan
  | .inf p, .inf q => if p = q then .inf p else .nan
  | .inf p, .num _ => .inf p
  | .num _, .inf q => .inf q
  | .num x, .num y => .num (x + y)

/-- One row of product_summary after groupby and agg (lines 80-83). -/
structure Summ where
  sku : String
  name : String
  quantity : ℚ
  line_total : ℚ
deriving DecidableEq

/-- A product_summary row after the pct_total column is added (line 90). -/
structure PctRow where
  sku : String
  name : String
  quantity : ℚ
  line_total : ℚ
  pct : PFloat
deriving DecidableEq

/-- A row of the returned top_products frame, after head, the index
shift (line 94) and the column renaming (line 97). -/
structure TopRow where
  rank : ℕ
  sku : String
  producto : String
  unidades : ℚ
  ventas : ℚ
  pct : PFloat
deriving DecidableEq

/-- Round half to even to an integer, the rounding used by numpy when
pandas Series.round is applied. -/
def rhe (q : ℚ) : ℤ :=
  if q - ⌊q⌋ < 1 / 2 then ⌊q⌋
  else if 1 / 2 < q - ⌊q⌋ then ⌊q⌋ + 1
  else if ⌊q⌋ % 2 = 0 then ⌊q⌋ else ⌊q⌋ + 1

/-- Series.round(2): round half to even at two decimal places. -/
def round2 (q : ℚ) : ℚ :=
  (rhe (q * 100) : ℚ) / 100

/-- The elementwise value of product_summary line_total / total_sales
* 100 (line 90): numpy float division emits NaN for 0/0 and a signed
infinity for x/0 with x nonzero, instead of raising. -/
def pdivPct (r t : ℚ) : PFloat :=
  if t = 0 then (if r = 0 then .nan else .inf (decide (0 < r)))
  else .num (r / t * 100)

/-- Series.round(2) on such a cell: NaN and infinities are unchanged. -/
def pround2 (x : PFloat) : PFloat :=
  match x with
  | .num q => .num (round2 q)
  | y => y

/-- The groupby key of a transaction line: the (sku, name) pair
(line 80 of the source). -/
def lineKey (l : TxLine) : String × String :=
  (l.sku, l.name)

/-- First-occurrence deduplication, giving the list of distinct group
keys in encounter order. -/
def dedupFirst (seen : List (String × String)) :
    List (String × String) → List (String × String)
  | [] => []
  | k :: ks =>
      if k ∈ seen then dedupFirst seen ks
      else k :: dedupFirst (k :: seen) ks

/-- The distinct (sku, name) keys of a line list. -/
def groupKeys (lines : List TxLine) : List (String × String) :=
  dedupFirst [] (lines.map lineKey)

/-- The number of groups formed by the groupby on line 80. -/
def numGroups (lines : List TxLine) : ℕ :=
  (groupKeys lines).length

/-- product_summary (lines 80-83): one row per distinct (sku, name)
pair, with quantity and line_total summed within the group. -/
def productSummary (lines : List TxLine) : List Summ :=
  (groupKeys lines).map (fun k =>
    let grp := lines.filter (fun l => lineKey l = k)
    { sku := k.1
      name := k.2
      quantity := (grp.map TxLine.quantity).sum
      line_total := (grp.map TxLine.line_total).sum })

/-- The sort order of line 86: descending by the line_total column. -/
def revGe (a b : Summ) : Prop :=
  b.line_total ≤ a.line_total

instance : DecidableRel revGe :=
  fun a b => inferInstanceAs (Decidable (b.line_total ≤ a.line_total))

instance : IsTotal Summ revGe :=
  ⟨fun a b => le_total b.line_total a.line_total⟩

instance : IsTrans Summ revGe :=
  ⟨fun _ _ _ hab hbc => le_trans hbc hab⟩

/-- total_sales (line 89): the sum of the line_total column of
product_summary. -/
def totalRevS (lines : List TxLine) : ℚ :=
  ((List.insertionSort revGe (productSummary lines)).map Summ.line_total).sum

/-- product_summary after sorting by line_total descending (line 86)
and adding the pct_total column (line 90), before head is applied. -/
def summaryWithPct (lines : List TxLine) : List PctRow :=
  (List.insertionSort revGe (productSummary lines)).map (fun g =>
    { sku := g.sku
      name := g.name
      quantity := g.quantity
      line_total := g.line_total
      pct := pround2 (pdivPct g.line_total (totalRevS lines)) })

/-- DataFrame.head(n): for n >= 0 the first n rows, for n < 0 all rows
except the last |n|. -/
def dfHead {α : Type} (n : ℤ) (xs : List α) : List α :=
  if 0 ≤ n then xs.take n.toNat
  else xs.take (xs.length - (-n).toNat)

/-- The index shift of line 94 together with the renaming of line 97:
the i-th remaining row (0-based) becomes the row ranked i + start. -/
def assignRanks (start : ℕ) : List PctRow → List TopRow
  | [] => []
  | g :: gs =>
      { rank := start
        sku := g.sku
        producto := g.name
        unidades := g.quantity
        ventas := g.line_total
        pct := g.pct } :: assignRanks (start + 1) gs

/-- get_top_products (lines 64-99). -/
def get_top_products (items : List TxLine) (top_n : ℤ) : List TopRow :=
  if items.isEmpty then []
  else assignRanks 1 (dfHead top_n (summaryWithPct items))

/-- The IEEE sum of the pct_total column across all groups (the
quantity the specification constrains in its percentage property). -/
def pctTotalSum (lines : List TxLine) : PFloat :=
  ((summaryWithPct lines).map PctRow.pct).foldl pAdd (.num 0)

/-- Truncation toward zero, as Python int() applied to a float. -/
def qtrunc (q : ℚ) : ℤ :=
  if 0 ≤ q then ⌊q⌋ else ⌈q⌉

/-- Insert a comma after every third character of a reversed digit
list (the , flag of a Python format spec). -/
def commaGroup : List Char → List Char
  | a :: b :: c :: d :: rest => a :: b :: c :: ',' :: commaGroup (d :: rest)
  | l => l

/-- A natural number rendered with thousands separators. -/
def natCommas (n : ℕ) : String :=
  String.mk (commaGroup (toString n).toList.reverse).reverse

/-- A remainder below 100 rendered as exactly two digits. -/
def pad2 (n : ℕ) : String :=
  if n < 10 then "0" ++ toString n else toString n

/-- Python format spec ",.2f" prefixed with a dollar sign, on an exact
decimal value: round half to even at two decimals, group the integer
digits. -/
def fmtMoney (q : ℚ) : String :=
  let c : ℤ := rhe (q * 100)
  "$" ++ (if c < 0 then "-" else "")
      ++ natCommas (c.natAbs / 100) ++ "." ++ pad2 (c.natAbs % 100)

/-- Python format spec ".1f" followed by a percent sign. -/
def fmtPctStr (q : ℚ) : String :=
  let t : ℤ := rhe (q * 10)
  (if t < 0 then "-" else "")
      ++ toString (t.natAbs / 10) ++ "." ++ toString (t.natAbs % 10) ++ "%"

/-- Python format spec "," on int(x). -/
def fmtUnits (q : ℚ) : String :=
  let i : ℤ := qtrunc q
  (if i < 0 then "-" else "") ++ natCommas i.natAbs

/-- A display-table cell: still a float (possibly NaN or infinite), or
already a string. -/
inductive Cell where
  | pf (x : PFloat) : Cell
  | str (s : String) : Cell
deriving DecidableEq

/-- One row of the table handed to format_product_table (the frame
returned by get_top_products, whose SKU and Producto columns are
strings and whose other three columns are floats before formatting). -/
structure PRow where
  sku : String
  producto : String
  unidades : Cell
  ventas : Cell
  pct : Cell
deriving DecidableEq

/-- The DataFrame object passed to format_product_table, identified by
its contents: the model tracks the state of the caller-owned object
before and after the call, which is how the in-place column assignments
of lines 116-118 are observable. -/
structure PTable where
  rows : List PRow
deriving DecidableEq

/-- The lambda of line 116 on one cell; none models the ValueError a
non-float cell raises under the ",.2f" spec. -/
def fmtMoneyCell (c : Cell) : Option Cell :=
  match c with
  | .pf (.num q) => some (.str (fmtMoney q))
  | .pf .nan => some (.str ("$nan"))
  | .pf (.inf true) => some (.str ("$inf"))
  | .pf (.inf false) => some (.str ("$-inf"))
  | .str _ => none

/-- The lambda of line 117 on one cell. -/
def fmtPctCell (c : Cell) : Option Cell :=
  match c with
  | .pf (.num q) => some (.str (fmtPctStr q))
  | .pf .nan => some (.str ("nan%"))
  | .pf (.inf true) => some (.str ("inf%"))
  | .pf (.inf false) => some (.str ("-inf%"))
  | .str _ => none

/-- The lambda of line 118 on one cell; int() raises on NaN, an
infinity, and (for these tables) a string. -/
def fmtUnitsCell (c : Cell) : Option Cell :=
  match c with
  | .pf (.num q) => some (.str ((if qtrunc q < 0 then "-" else "")
      ++ natCommas (qtrunc q).natAbs))
  | _ => none

/-- The three column assignments of lines 116-118 applied to one row. -/
def fmtRow (r : PRow) : Option PRow :=
  match fmtMoneyCell r.ventas with
  | none => none
  | some v =>
  match fmtPctCell r.pct with
  | none => none
  | some p =>
  match fmtUnitsCell r.unidades with
  | none => none
  | some u => some { sku := r.sku, producto := r.producto,
                     unidades := u, ventas := v, pct := p }

/-- The three column assignments applied to every row of the frame. -/
def fmtRows : List PRow → Option (List PRow)
  | [] => some []
  | r :: rest =>
      match fmtRow r with
      | none => none
      | some a =>
          match fmtRows rest with
          | none => none
          | some bs => some (a :: bs)

/-- format_product_table (lines 101-120).  The result pairs the state
of the caller-owned frame after the call with the returned frame; the
column assignments of lines 116-118 mutate the argument, and line 120
returns that same object.  none models a formatting ValueError
escaping (in which case the argument is left partially mutated, a state
no caller of the source observes on the success path). -/
def format_product_table (df : PTable) : Option (PTable × PTable) :=
  if df.rows.isEmpty then some (df, df)
  else
    match fmtRows df.rows with
    | none => none
    | some rs => some (⟨rs⟩, ⟨rs⟩)

/-- float() on this value does not raise ValueError: it is not a string
that fails the numeric parse.  (A None/list/dict raises TypeError,
which the except clause of the source catches.) -/
def floatSafe (v : Json) : Bool :=
  match v with
  | .str s => (parseFloat? s).isSome
  | _ => true

/-- Processing this parsed item cannot raise an uncaught exception: it
is a dict, and its price and total_discount values do not make float()
raise ValueError. -/
def itemSafe (it : Json) : Bool :=
  match it with
  | .obj fs => floatSafe (jget fs ("price") (.num 0))
      && floatSafe (jget fs ("total_discount") (.num 0))
  | _ => false

/-- The item sequence the for loop of line 36 would traverse for this
line_items value ([] when the order is skipped before the loop). -/
def jitems (f : LIField) : List Json :=
  match f with
  | .jstr (some j) => (pyIter j).getD []
  | .jlist its => its
  | _ => []

/-- Every item this order row can reach is safe to process. -/
def rowSafe (r : OrderRow) : Bool :=
  (jitems r.line_items).all itemSafe

/-- An input defect of one of the kinds the claim enumerates apart from
numeric coercion: a malformed JSON string, a line_items value of an
unrecognized type, or a missing order metadata column. -/
def benignDefect (r : OrderRow) : Prop :=
  r.line_items = .jstr none ∨ r.line_items = .other ∨
    r.id = none ∨ r.date = none ∨ r.channel = none

/-- Descending-revenue order on output rows. -/
def ventGe (a b : TopRow) : Prop :=
  b.ventas ≤ a.ventas

instance : DecidableRel ventGe :=
  fun a b => inferInstanceAs (Decidable (b.ventas ≤ a.ventas))

/-- A well-formed order carrying one Widget item (the concrete scenario
of the specification). -/
def okRow : OrderRow :=
  { id := some (.num 1)
    date := some (.str "2024-01-01")
    channel := some (.str "Amazon")
    line_items := .jstr (some (.arr [.obj
      [("sku", .str "X1"), ("name", .str "Widget"),
       ("price", .num 10), ("quantity", .num 2)]])) }

/-- An order whose single item has a price that float() cannot convert:
float("abc") raises ValueError, which the except clause does not list. -/
def badPriceRow : OrderRow :=
  { id := some (.num 2)
    date := some (.str "2024-01-01")
    channel := some (.str "Amazon")
    line_items := .jstr (some (.arr [.obj
      [("price", .str "abc"), ("quantity", .num 1)]])) }

/-- An order whose line_items string parses to a JSON object: the for
loop then iterates over its keys, and item.get on a str raises
AttributeError, which the except clause does not list. -/
def dictRow : OrderRow :=
  { id := some (.num 3)
    date := some (.str "2024-01-01")
    channel := some (.str "Amazon")
    line_items := .jstr (some (.obj [("a", .num 1)])) }

/-- An order whose line_items string is malformed JSON. -/
def malformedRow : OrderRow :=
  { id := some (.num 4)
    date := some (.str "2024-01-01")
    channel := some (.str "Amazon")
    line_items := .jstr none }

/-- An order that parses to a list of item maps but has no id column. -/
def noIdRow : OrderRow :=
  { id := none
    date := some (.str "2024-01-01")
    channel := some (.str "Amazon")
    line_items := .jstr (some (.arr [.obj
      [("sku", .str "Z9"), ("price", .num 3), ("quantity", .num 1)]])) }

/-- Two transaction lines in two distinct groups with distinct revenue. -/
def twoLines : List TxLine :=
  [⟨"A", "a", 1, 10⟩, ⟨"B", "b", 1, 5⟩]

/-- A single line with zero revenue: total_sales is 0 and the pct_total
division is 0/0. -/
def zeroLines : List TxLine :=
  [⟨"A", "a", 1, 0⟩]

/-- Thirteen groups whose total revenue is exactly 100 and whose
individually rounded percentages sum to 100.06. -/
def driftLines : List TxLine :=
  [⟨"P01", "n", 1, 200501/100000⟩, ⟨"P02", "n", 1, 200501/100000⟩,
   ⟨"P03", "n", 1, 200501/100000⟩, ⟨"P04", "n", 1, 200501/100000⟩,
   ⟨"P05", "n", 1, 200501/100000⟩, ⟨"P06", "n", 1, 200501/100000⟩,
   ⟨"P07", "n", 1, 200501/100000⟩, ⟨"P08", "n", 1, 200501/100000⟩,
   ⟨"P09", "n", 1, 200501/100000⟩, ⟨"P10", "n", 1, 200501/100000⟩,
   ⟨"P11", "n", 1, 200501/100000⟩, ⟨"P12", "n", 1, 200501/100000⟩,
   ⟨"Q13", "n", 1, 7593988/100000⟩]

/-- A one-row display table with float cells, as produced by the ranker
for the concrete Widget scenario. -/
def widgetTable : PTable :=
  ⟨[⟨"X1", "Widget", .pf (.num 2), .pf (.num 20), .pf (.num 100)⟩]⟩

/-- The distinct group keys of the lines with duplicated SKU used to
exercise the grouping claim. -/
def dupSkuLines : List TxLine :=
  [⟨"A", "x", 1, 10⟩, ⟨"A", "y", 2, 5⟩]

/-- The transaction line that okRow contributes. -/
def widgetLine : ExtractLine :=
  { order_id := .num 1
    order_date := .str "2024-01-01"
    channel := .str "Amazon"
    line_item_id := .null
    product_id := .null
    variant_id := .null
    sku := .str "X1"
    name := .str "Widget"
    title := .str "Widget"
    quantity := .num 2
    price := 10
    total_discount := 0
    line_total := 20 }

/-- The widget display table after the three formatting assignments. -/
def widgetTableF : PTable :=
  ⟨[⟨"X1", "Widget", .str "2", .str "$20.00", .str "100.0%"⟩]⟩

theorem processOrder_jstr_none (r : OrderRow) (h : r.line_items = .jstr none) :
    processOrder r = .ok [] := by
  unfold processOrder
  rw [h]

theorem processOrder_other (r : OrderRow) (h : r.line_items = .other) :
    processOrder r = .ok [] := by
  unfold processOrder
  rw [h]

theorem buildLine_missing (r : OrderRow) (it : Json)
    (h : r.id = none ∨ r.date = none ∨ r.channel = none) :
    buildLine r it = .error .keyErr := by
  unfold buildLine
  rcases h with h | h | h
  · rw [h]
  · cases hid : r.id
    · rfl
    · rw [h]
  · cases hid : r.id
    · rfl
    · cases hd : r.date
      · rfl
      · rw [h]

theorem processOrder_noMeta (r : OrderRow)
    (h : r.id = none ∨ r.date = none ∨ r.channel = none) :
    processOrder r = .ok [] := by
  unfold processOrder
  cases hli : r.line_items with
  | jstr p =>
      cases p with
      | none => rfl
      | some j =>
          show (match pyIter j with
                | none => Except.ok []
                | some its => processItems r its) = Except.ok []
          cases hit : pyIter j with
          | none => rfl
          | some its =>
              cases its with
              | nil => rfl
              | cons it rest =>
                  simp [processItems, buildLine_missing r it h]
  | jlist its =>
      cases its with
      | nil => rfl
      | cons it rest =>
          simp [processItems, buildLine_missing r it h]
  | other => rfl

theorem extract_eq (xs : List OrderRow) :
    extract_line_items_from_orders true xs = extractRows xs := by
  cases xs with
  | nil => rfl
  | cons x rest => rfl

theorem extractRows_skip (r : OrderRow) (hr : processOrder r = .ok []) :
    ∀ pre post, extractRows (pre ++ r :: post) = extractRows (pre ++ post) := by
  intro pre
  induction pre with
  | nil =>
      intro post
      have e1 : extractRows (r :: post)
          = (match processOrder r with
             | .ok ls =>
                 (match extractRows post with
                  | .ok rest => .ok (ls ++ rest)
                  | .error e => .error e)
             | .error e => .error e) := rfl
      rw [List.nil_append, List.nil_append, e1, hr]
      cases h : extractRows post with
      | ok rest => rfl
      | error e => rfl
  | cons p pre ih =>
      intro post
      show extractRows (p :: (pre ++ r :: post)) = extractRows (p :: (pre ++ post))
      unfold extractRows
      rw [ih post]

theorem extract_skip (r : OrderRow) (hr : processOrder r = .ok [])
    (pre post : List OrderRow) :
    extract_line_items_from_orders true (pre ++ r :: post)
      = extract_line_items_from_orders true (pre ++ post) := by
  rw [extract_eq, extract_eq]
  exact extractRows_skip r hr pre post

/-- Claim C9: rank is deterministic: two invocations of get_top_products
with identical transaction-line input and identical top_n produce
identical output sequences, with no hidden state influencing the
result. -/
theorem C9_rank_deterministic (l1 l2 : List TxLine) (n1 n2 : ℤ)
    (hl : l1 = l2) (hn : n1 = n2) :
    get_top_products l1 n1 = get_top_products l2 n2 := by
  subst hl; subst hn; rfl

/-- Witness for C9 at a concrete input. -/
theorem C9_witness :
    get_top_products twoLines 5 = get_top_products twoLines 5 :=
  C9_rank_deterministic twoLines twoLines 5 5 rfl rfl

/-- Claim C4: an order whose line-items field is a malformed JSON string
contributes zero transaction lines, and the remaining orders are
processed exactly as if the malformed order were absent. -/
theorem C4_malformed_json_skipped (pre post : List OrderRow) (r : OrderRow)
    (h : r.line_items = .jstr none) :
    extract_line_items_from_orders true (pre ++ r :: post)
      = extract_line_items_from_orders true (pre ++ post) :=
  extract_skip r (processOrder_jstr_none r h) pre post

/-- Witness for C4: dropping a malformed order between two good ones. -/
theorem C4_witness :
    extract_line_items_from_orders true ([okRow] ++ malformedRow :: [okRow])
      = extract_line_items_from_orders true ([okRow] ++ [okRow]) :=
  C4_malformed_json_skipped [okRow] [okRow] malformedRow rfl

/-- Claim C10: an order whose line-items payload parses to a list of
item maps but which lacks an id, date or channel column contributes
zero transaction lines without raising: the KeyError from the metadata
access is absorbed by the same per-order skip as payload parse
failures, and the rest of the batch is processed as if the order were
absent. -/
theorem C10_missing_metadata_skipped (r : OrderRow) (its : List Json)
    (pre post : List OrderRow)
    (hparse : r.line_items = .jstr (some (.arr its)))
    (hmaps : ∀ it ∈ its, ∃ fs, it = Json.obj fs)
    (hmeta : r.id = none ∨ r.date = none ∨ r.channel = none) :
    processOrder r = .ok [] ∧
      extract_line_items_from_orders true (pre ++ r :: post)
        = extract_line_items_from_orders true (pre ++ post) := by
  have h0 := processOrder_noMeta r hmeta
  exact ⟨h0, extract_skip r h0 pre post⟩

/-- Witness for C10: an order with items but no id column. -/
theorem C10_witness :
    processOrder noIdRow = .ok [] ∧
      extract_line_items_from_orders true ([okRow] ++ noIdRow :: [])
        = extract_line_items_from_orders true ([okRow] ++ []) :=
  C10_missing_metadata_skipped noIdRow
    [.obj [("sku", .str "Z9"), ("price", .num 3), ("quantity", .num 1)]]
    [okRow] []
    rfl
    (by
      intro it hit
      rw [List.mem_singleton] at hit
      exact ⟨_, hit⟩)
    (Or.inl rfl)

theorem assignRanks_length (s : ℕ) (l : List PctRow) :
    (assignRanks s l).length = l.length := by
  induction l generalizing s with
  | nil => rfl
  | cons g gs ih => simp [assignRanks, ih]

theorem summaryWithPct_length (lines : List TxLine) :
    (summaryWithPct lines).length = numGroups lines := by
  unfold summaryWithPct
  rw [List.length_map, (List.perm_insertionSort revGe (productSummary lines)).length_eq]
  unfold productSummary numGroups
  rw [List.length_map]

/-- Claim C2 (amended): get_top_products returns an empty frame for
top_n = 0, but a negative top_n behaves like DataFrame.head on a
negative count: it keeps all but the last |top_n| grouped rows, so with
more groups than |top_n| the result is not empty. -/
theorem C2_nonpositive_topn (lines : List TxLine) (n : ℤ) :
    (n = 0 → get_top_products lines n = []) ∧
    (lines ≠ [] → n < 0 →
      (get_top_products lines n).length = numGroups lines - (-n).toNat) := by
  constructor
  · intro h
    subst h
    unfold get_top_products
    split
    · rfl
    · rfl
  · intro hne hn
    have hK : lines.isEmpty = false := by
      cases lines with
      | nil => exact absurd rfl hne
      | cons a l => rfl
    unfold get_top_products
    rw [hK]
    simp only [Bool.false_eq_true, if_false]
    rw [assignRanks_length]
    unfold dfHead
    rw [if_neg (by omega : ¬ (0:ℤ) ≤ n)]
    rw [List.length_take, summaryWithPct_length]
    exact Nat.min_eq_left (Nat.sub_le _ _)

/-- Counterexample for C2: with two groups and top_n = -1, the result
still contains a product aggregate, contradicting the claim that every
top_n ≤ 0 yields an empty result. -/
theorem C2_cex : get_top_products twoLines (-1) ≠ [] := by decide

/-- Witness for C2 at concrete inputs. -/
theorem C2_witness :
    get_top_products twoLines 0 = [] ∧
      (get_top_products twoLines (-1)).length
        = numGroups twoLines - ((-(-1 : ℤ)).toNat) :=
  ⟨(C2_nonpositive_topn twoLines 0).1 rfl,
   (C2_nonpositive_topn twoLines (-1)).2 (by decide) (by decide)⟩

theorem mem_dedupFirst (k : String × String) :
    ∀ (ks seen : List (String × String)), k ∈ ks → k ∉ seen →
      k ∈ dedupFirst seen ks := by
  intro ks
  induction ks with
  | nil =>
      intro seen h _
      exact absurd h (List.not_mem_nil k)
  | cons a ks ih =>
      intro seen hk hns
      unfold dedupFirst
      by_cases ha : a ∈ seen
      · rw [if_pos ha]
        rcases List.mem_cons.mp hk with h | h
        · subst h
          exact absurd ha hns
        · exact ih seen h hns
      · rw [if_neg ha]
        rcases List.mem_cons.mp hk with h | h
        · subst h
          exact List.mem_cons_self _ _
        · by_cases hak : k = a
          · subst hak
            exact List.mem_cons_self _ _
          · refine List.mem_cons_of_mem _ (ih (a :: seen) h ?_)
            intro hmem
            rcases List.mem_cons.mp hmem with h2 | h2
            · exact hak h2
            · exact hns h2

theorem key_mem_groupKeys {l : TxLine} {lines : List TxLine} (hl : l ∈ lines) :
    lineKey l ∈ groupKeys lines :=
  mem_dedupFirst (lineKey l) (lines.map lineKey) []
    (List.mem_map_of_mem lineKey hl) (List.not_mem_nil _)

theorem mem_summaryWithPct {g : Summ} {lines : List TxLine}
    (hg : g ∈ productSummary lines) :
    ∃ p ∈ summaryWithPct lines, p.sku = g.sku ∧ p.name = g.name := by
  unfold summaryWithPct
  have hs : g ∈ List.insertionSort revGe (productSummary lines) :=
    (List.perm_insertionSort revGe (productSummary lines)).mem_iff.mpr hg
  refine ⟨_, List.mem_map_of_mem _ hs, rfl, rfl⟩

theorem dfHead_all {α : Type} (n : ℤ) (xs : List α)
    (h : (xs.length : ℤ) ≤ n) : dfHead n xs = xs := by
  unfold dfHead
  rw [if_pos (le_trans (Int.natCast_nonneg _) h)]
  exact List.take_of_length_le (by omega)

theorem assignRanks_mem {p : PctRow} :
    ∀ (s : ℕ) (l : List PctRow), p ∈ l →
      ∃ t ∈ assignRanks s l, t.sku = p.sku ∧ t.producto = p.name
        ∧ t.ventas = p.line_total := by
  intro s l
  induction l generalizing s with
  | nil =>
      intro h
      exact absurd h (List.not_mem_nil p)
  | cons g gs ih =>
      intro hp
      rcases List.mem_cons.mp hp with h | h
      · subst h
        exact ⟨_, List.mem_cons_self _ _, rfl, rfl, rfl⟩
      · rcases ih (s + 1) h with ⟨t, ht, h1, h2, h3⟩
        exact ⟨t, List.mem_cons_of_mem _ ht, h1, h2, h3⟩

/-- Claim C6: get_top_products groups by the (SKU, name) pair jointly,
so a SKU recorded under two different names yields two separate
aggregate rows: two distinct rows in product_summary, and (whenever
top_n does not truncate them away) two distinct rows in the returned
ranking. -/
theorem C6_sku_name_pair_grouping (lines : List TxLine) (l1 l2 : TxLine)
    (n : ℤ) (h1 : l1 ∈ lines) (h2 : l2 ∈ lines) (hsku : l1.sku = l2.sku)
    (hname : l1.name ≠ l2.name) :
    (∃ g1 ∈ productSummary lines, ∃ g2 ∈ productSummary lines,
        g1.sku = l1.sku ∧ g1.name = l1.name ∧ g2.sku = l2.sku
          ∧ g2.name = l2.name ∧ g1 ≠ g2) ∧
    ((numGroups lines : ℤ) ≤ n →
      ∃ t1 ∈ get_top_products lines n, ∃ t2 ∈ get_top_products lines n,
        t1.sku = l1.sku ∧ t1.producto = l1.name ∧ t2.sku = l2.sku
          ∧ t2.producto = l2.name ∧ t1 ≠ t2) := by
  have hk1 : lineKey l1 ∈ groupKeys lines := key_mem_groupKeys h1
  have hk2 : lineKey l2 ∈ groupKeys lines := key_mem_groupKeys h2
  have hg1 := List.mem_map_of_mem (fun k =>
    ({ sku := k.1
       name := k.2
       quantity := ((lines.filter (fun l => lineKey l = k)).map TxLine.quantity).sum
       line_total := ((lines.filter (fun l => lineKey l = k)).map TxLine.line_total).sum } : Summ)) hk1
  have hg2 := List.mem_map_of_mem (fun k =>
    ({ sku := k.1
       name := k.2
       quantity := ((lines.filter (fun l => lineKey l = k)).map TxLine.quantity).sum
       line_total := ((lines.filter (fun l => lineKey l = k)).map TxLine.line_total).sum } : Summ)) hk2
  constructor
  · refine ⟨_, hg1, _, hg2, rfl, rfl, rfl, rfl, ?_⟩
    intro he
    exact hname (congrArg Summ.name he)
  · intro hn
    rcases mem_summaryWithPct hg1 with ⟨p1, hp1, hs1, hn1⟩
    rcases mem_summaryWithPct hg2 with ⟨p2, hp2, hs2, hn2⟩
    have hlen : ((summaryWithPct lines).length : ℤ) ≤ n := by
      rw [summaryWithPct_length]
      exact hn
    have hne : lines ≠ [] := by
      intro h0
      subst h0
      exact absurd h1 (List.not_mem_nil l1)
    have hK : lines.isEmpty = false := by
      cases lines with
      | nil => exact absurd rfl hne
      | cons a l => rfl
    rcases assignRanks_mem 1 (summaryWithPct lines) hp1 with ⟨t1, ht1, ha1, hb1, _⟩
    rcases assignRanks_mem 1 (summaryWithPct lines) hp2 with ⟨t2, ht2, ha2, hb2, _⟩
    have hres : get_top_products lines n = assignRanks 1 (summaryWithPct lines) := by
      unfold get_top_products
      rw [hK]
      simp only [Bool.false_eq_true, if_false]
      rw [dfHead_all n _ hlen]
    rw [hres]
    refine ⟨t1, ht1, t2, ht2, ?_, ?_, ?_, ?_, ?_⟩
    · rw [ha1, hs1]
      rfl
    · rw [hb1, hn1]
      rfl
    · rw [ha2, hs2]
      rfl
    · rw [hb2, hn2]
      rfl
    · intro he
      apply hname
      have e1 : t1.producto = t2.producto := congrArg TopRow.producto he
      rw [hb1, hn1, hb2, hn2] at e1
      exact e1

/-- Witness for C6 at the concrete duplicated-SKU lines. -/
theorem C6_witness :
    (∃ g1 ∈ productSummary dupSkuLines, ∃ g2 ∈ productSummary dupSkuLines,
        g1.sku = "A" ∧ g1.name = "x" ∧ g2.sku = "A" ∧ g2.name = "y" ∧ g1 ≠ g2) ∧
    ((numGroups dupSkuLines : ℤ) ≤ 20 →
      ∃ t1 ∈ get_top_products dupSkuLines 20,
        ∃ t2 ∈ get_top_products dupSkuLines 20,
          t1.sku = "A" ∧ t1.producto = "x" ∧ t2.sku = "A" ∧ t2.producto = "y"
            ∧ t1 ≠ t2) :=
  C6_sku_name_pair_grouping dupSkuLines ⟨"A", "x", 1, 10⟩ ⟨"A", "y", 2, 5⟩ 20
    (by decide) (by decide) rfl (by decide)

theorem summaryWithPct_pairwise (lines : List TxLine) :
    List.Pairwise (fun a b : PctRow => b.line_total ≤ a.line_total)
      (summaryWithPct lines) := by
  unfold summaryWithPct
  exact List.Pairwise.map _ (fun a b h => h)
    (List.sorted_insertionSort revGe (productSummary lines))

theorem mem_assignRanks {t : TopRow} :
    ∀ (s : ℕ) (l : List PctRow), t ∈ assignRanks s l →
      ∃ p ∈ l, t.ventas = p.line_total := by
  intro s l
  induction l generalizing s with
  | nil =>
      intro h
      exact absurd h (List.not_mem_nil t)
  | cons g gs ih =>
      intro ht
      rcases List.mem_cons.mp ht with h | h
      · subst h
        exact ⟨g, List.mem_cons_self _ _, rfl⟩
      · rcases ih (s + 1) h with ⟨p, hp, hv⟩
        exact ⟨p, List.mem_cons_of_mem _ hp, hv⟩

theorem assignRanks_pairwise :
    ∀ (s : ℕ) (l : List PctRow),
      List.Pairwise (fun a b : PctRow => b.line_total ≤ a.line_total) l →
        List.Pairwise ventGe (assignRanks s l) := by
  intro s l
  induction l generalizing s with
  | nil =>
      intro _
      exact List.Pairwise.nil
  | cons g gs ih =>
      intro h
      rcases List.pairwise_cons.mp h with ⟨hg, hrest⟩
      refine List.pairwise_cons.mpr ⟨?_, ih (s + 1) hrest⟩
      intro t ht
      rcases mem_assignRanks (s + 1) gs ht with ⟨p, hp, hv⟩
      show t.ventas ≤ g.line_total
      rw [hv]
      exact hg p hp

theorem assignRanks_map_rank :
    ∀ (s : ℕ) (l : List PctRow),
      (assignRanks s l).map TopRow.rank = List.range' s l.length := by
  intro s l
  induction l generalizing s with
  | nil => rfl
  | cons g gs ih =>
      show s :: (assignRanks (s + 1) gs).map TopRow.rank
        = List.range' s (gs.length + 1)
      rw [List.range'_succ, ih (s + 1)]

/-- Claim C5: for a non-empty line sequence and top_n ≥ 1,
get_top_products returns exactly min(top_n, number of groups) rows,
their rank numbers are the contiguous integers 1..k, and total revenue
is monotonically non-increasing as rank increases. -/
theorem C5_topn_ranking (lines : List TxLine) (n : ℤ)
    (hne : lines ≠ []) (hn : 1 ≤ n) :
    (get_top_products lines n).length = min n.toNat (numGroups lines) ∧
    (get_top_products lines n).map TopRow.rank
      = List.range' 1 (get_top_products lines n).length ∧
    List.Pairwise ventGe (get_top_products lines n) := by
  have hK : lines.isEmpty = false := by
    cases lines with
    | nil => exact absurd rfl hne
    | cons a l => rfl
  have hres : get_top_products lines n
      = assignRanks 1 (List.take n.toNat (summaryWithPct lines)) := by
    unfold get_top_products
    rw [hK]
    simp only [Bool.false_eq_true, if_false]
    unfold dfHead
    rw [if_pos (le_trans zero_le_one hn)]
  refine ⟨?_, ?_, ?_⟩
  · rw [hres, assignRanks_length, List.length_take, summaryWithPct_length]
  · rw [hres, assignRanks_map_rank, assignRanks_length]
  · rw [hres]
    exact assignRanks_pairwise 1 _
      (List.Pairwise.sublist (List.take_sublist _ _) (summaryWithPct_pairwise lines))

/-- Witness for C5 at a concrete input. -/
theorem C5_witness :
    (get_top_products twoLines 1).length = min (1 : ℤ).toNat (numGroups twoLines) ∧
    (get_top_products twoLines 1).map TopRow.rank
      = List.range' 1 (get_top_products twoLines 1).length ∧
    List.Pairwise ventGe (get_top_products twoLines 1) :=
  C5_topn_ranking twoLines 1 (by decide) (by decide)

theorem buildLine_ok_line {row : OrderRow} {it : Json} {l : ExtractLine}
    (h : buildLine row it = .ok l) :
    ∃ q, jNum? l.quantity = some q ∧ l.line_total = l.price * q := by
  unfold buildLine at h
  split at h
  · exact Except.noConfusion h
  split at h
  · exact Except.noConfusion h
  split at h
  · exact Except.noConfusion h
  split at h
  case _ fs =>
    split at h
    · exact Except.noConfusion h
    split at h
    · exact Except.noConfusion h
    split at h
    · exact Except.noConfusion h
    case _ qv heq =>
      injection h with h2
      subst h2
      exact ⟨qv, heq, rfl⟩
  · exact Except.noConfusion h

theorem processItems_lines {row : OrderRow} :
    ∀ (its : List Json) (ls : List ExtractLine),
      processItems row its = .ok ls →
      ∀ l ∈ ls, ∃ q, jNum? l.quantity = some q ∧ l.line_total = l.price * q := by
  intro its
  induction its with
  | nil =>
      intro ls h l hl
      injection h with h2
      subst h2
      exact absurd hl (List.not_mem_nil l)
  | cons it rest ih =>
      intro ls h l hl
      unfold processItems at h
      split at h
      case _ l0 hb =>
        split at h
        case _ ls0 hrest =>
          injection h with h2
          subst h2
          rcases List.mem_cons.mp hl with h3 | h3
          · subst h3
            exact buildLine_ok_line hb
          · exact ih ls0 hrest l h3
        case _ e hrest =>
          exact Except.noConfusion h
      · injection h with h2
        subst h2
        exact absurd hl (List.not_mem_nil l)
      · injection h with h2
        subst h2
        exact absurd hl (List.not_mem_nil l)
      · exact Except.noConfusion h
      · exact Except.noConfusion h

theorem processOrder_lines {row : OrderRow} {ls : List ExtractLine}
    (h : processOrder row = .ok ls) :
    ∀ l ∈ ls, ∃ q, jNum? l.quantity = some q ∧ l.line_total = l.price * q := by
  unfold processOrder at h
  split at h
  · injection h with h2
    subst h2
    intro l hl
    exact absurd hl (List.not_mem_nil l)
  · split at h
    · injection h with h2
      subst h2
      intro l hl
      exact absurd hl (List.not_mem_nil l)
    · exact processItems_lines _ ls h
  · exact processItems_lines _ ls h
  · injection h with h2
    subst h2
    intro l hl
    exact absurd hl (List.not_mem_nil l)

theorem extractRows_lines :
    ∀ (rows : List OrderRow) (ls : List ExtractLine),
      extractRows rows = .ok ls →
      ∀ l ∈ ls, ∃ q, jNum? l.quantity = some q ∧ l.line_total = l.price * q := by
  intro rows
  induction rows with
  | nil =>
      intro ls h l hl
      injection h with h2
      subst h2
      exact absurd hl (List.not_mem_nil l)
  | cons r rs ih =>
      intro ls h l hl
      unfold extractRows at h
      split at h
      case _ a hr =>
        split at h
        case _ b hrest =>
          injection h with h2
          subst h2
          rcases List.mem_append.mp hl with h3 | h3
          · exact processOrder_lines hr l h3
          · exact ih b hrest l h3
        case _ e hrest =>
          exact Except.noConfusion h
      · exact Except.noConfusion h

/-- Claim C8: every transaction line produced by extract has
line_total equal to its price column (the coerced raw price, or the 0.0
default when absent) times the numeric value of its quantity column
(the raw quantity, or the 0 default when absent). -/
theorem C8_line_total_product (hasLI : Bool) (rows : List OrderRow)
    (ls : List ExtractLine)
    (h : extract_line_items_from_orders hasLI rows = .ok ls) :
    ∀ l ∈ ls, ∃ q, jNum? l.quantity = some q ∧ l.line_total = l.price * q := by
  unfold extract_line_items_from_orders at h
  split at h
  · injection h with h2
    subst h2
    intro l hl
    exact absurd hl (List.not_mem_nil l)
  · exact extractRows_lines rows ls h

/-- Witness for C8 on the Widget line: quantity 2, price 10,
line_total 20. -/
theorem C8_witness :
    ∃ q, jNum? widgetLine.quantity = some q
      ∧ widgetLine.line_total = widgetLine.price * q :=
  C8_line_total_product true [okRow] [widgetLine] rfl widgetLine
    (List.mem_singleton_self widgetLine)

theorem pyFloat_safe {v : Json} (hs : floatSafe v = true) {e : BErr}
    (h : pyFloat v = .error e) : e = .typeErr := by
  cases v with
  | null => injection h with h2; exact h2.symm
  | bool b => exact Except.noConfusion h
  | num q => exact Except.noConfusion h
  | str s =>
      simp only [floatSafe] at hs
      simp only [pyFloat] at h
      cases hp : parseFloat? s with
      | none =>
          rw [hp] at hs
          exact Option.noConfusion (Option.isSome_iff_exists.mp hs).choose_spec
      | some q => rw [hp] at h; exact Except.noConfusion h
  | arr xs => injection h with h2; exact h2.symm
  | obj fs => injection h with h2; exact h2.symm

theorem buildLine_no_uncaught {row : OrderRow} {it : Json}
    (hs : itemSafe it = true) :
    ∀ e, buildLine row it = .error e → e = .keyErr ∨ e = .typeErr := by
  intro e h
  unfold buildLine at h
  split at h
  · injection h with h2; exact Or.inl h2.symm
  split at h
  · injection h with h2; exact Or.inl h2.symm
  split at h
  · injection h with h2; exact Or.inl h2.symm
  split at h
  case _ fs =>
    simp only [itemSafe, Bool.and_eq_true] at hs
    rcases hs with ⟨hp, hd⟩
    split at h
    case _ e1 he1 =>
      injection h with h2
      subst h2
      exact Or.inr (pyFloat_safe hp he1)
    split at h
    case _ e2 he2 =>
      injection h with h2
      subst h2
      exact Or.inr (pyFloat_safe hd he2)
    split at h
    · injection h with h2; exact Or.inr h2.symm
    · exact Except.noConfusion h
  case _ hobj =>
    cases it with
    | obj fs => exact absurd rfl (hobj fs)
    | null => exact Bool.noConfusion hs
    | bool b => exact Bool.noConfusion hs
    | num q => exact Bool.noConfusion hs
    | str s => exact Bool.noConfusion hs
    | arr xs => exact Bool.noConfusion hs

theorem processItems_safe {row : OrderRow} :
    ∀ its : List Json, (∀ it ∈ its, itemSafe it = true) →
      ∃ ls, processItems row its = .ok ls := by
  intro its
  induction its with
  | nil => exact fun _ => ⟨[], rfl⟩
  | cons it rest ih =>
      intro hs
      have hit : itemSafe it = true := hs it (List.mem_cons_self _ _)
      rcases ih (fun x hx => hs x (List.mem_cons_of_mem _ hx)) with ⟨ls, hls⟩
      unfold processItems
      cases hb : buildLine row it with
      | ok l =>
          rw [hls]
          exact ⟨l :: ls, rfl⟩
      | error e =>
          rcases buildLine_no_uncaught hit e hb with h2 | h2
          · subst h2; exact ⟨[], rfl⟩
          · subst h2; exact ⟨[], rfl⟩

theorem processOrder_safe {r : OrderRow} (hs : rowSafe r = true) :
    ∃ ls, processOrder r = .ok ls := by
  unfold rowSafe at hs
  unfold processOrder
  cases hli : r.line_items with
  | jstr p =>
      cases p with
      | none => exact ⟨[], rfl⟩
      | some j =>
          show ∃ ls, (match pyIter j with
                      | none => Except.ok []
                      | some its => processItems r its) = .ok ls
          cases hit : pyIter j with
          | none => exact ⟨[], rfl⟩
          | some its =>
              rw [hli] at hs
              simp only [jitems] at hs
              rw [hit] at hs
              exact processItems_safe its (fun it hmem =>
                List.all_eq_true.mp hs it hmem)
  | jlist its =>
      rw [hli] at hs
      exact processItems_safe its (fun it hmem =>
        List.all_eq_true.mp hs it hmem)
  | other => exact ⟨[], rfl⟩

theorem extractRows_safe :
    ∀ rows : List OrderRow, (∀ r ∈ rows, rowSafe r = true) →
      ∃ ls, extractRows rows = .ok ls := by
  intro rows
  induction rows with
  | nil => exact fun _ => ⟨[], rfl⟩
  | cons r rs ih =>
      intro hs
      rcases processOrder_safe (hs r (List.mem_cons_self _ _)) with ⟨a, ha⟩
      rcases ih (fun x hx => hs x (List.mem_cons_of_mem _ hx)) with ⟨b, hb⟩
      unfold extractRows
      rw [ha, hb]
      exact ⟨a ++ b, rfl⟩

/-- Claim C1 (amended): extract never raises on orders whose reachable
items are maps with numerically coercible price and total_discount
fields, and the defect kinds malformed JSON, wrong-typed line-items
field, and missing order metadata keys make the affected order
contribute zero lines without raising; but a price or total_discount
holding a non-numeric string makes float() raise ValueError, which the
except clause does not list, so the exception escapes to the caller of
extract (as does the AttributeError from iterating a JSON object). -/
theorem C1_extract_failure_semantics :
    (∀ rows : List OrderRow, (∀ r ∈ rows, rowSafe r = true) →
        ∃ ls, extract_line_items_from_orders true rows = .ok ls) ∧
    (∀ r : OrderRow, benignDefect r → processOrder r = .ok []) := by
  constructor
  · intro rows hs
    rw [extract_eq]
    exact extractRows_safe rows hs
  · intro r hd
    rcases hd with h | h | h | h | h
    · exact processOrder_jstr_none r h
    · exact processOrder_other r h
    · exact processOrder_noMeta r (Or.inl h)
    · exact processOrder_noMeta r (Or.inr (Or.inl h))
    · exact processOrder_noMeta r (Or.inr (Or.inr h))

/-- Counterexample for C1: a price float() cannot convert makes the
whole extract call raise ValueError, and a line_items string parsing to
a JSON object makes it raise AttributeError (losing the lines already
extracted from the preceding good order), instead of the affected order
contributing zero lines. -/
theorem C1_cex :
    extract_line_items_from_orders true [badPriceRow] = .error .valueError ∧
    extract_line_items_from_orders true [okRow, dictRow] = .error .attributeError :=
  ⟨rfl, rfl⟩

/-- Witness for C1 at concrete inputs. -/
theorem C1_witness :
    (∃ ls, extract_line_items_from_orders true [okRow] = .ok ls) ∧
      processOrder malformedRow = .ok [] :=
  ⟨C1_extract_failure_semantics.1 [okRow] (by decide),
   C1_extract_failure_semantics.2 malformedRow (Or.inl rfl)⟩

theorem rhe_close (q : ℚ) : |(rhe q : ℚ) - q| ≤ 1 / 2 := by
  have h1 : (⌊q⌋ : ℚ) ≤ q := Int.floor_le q
  have h2 : q < (⌊q⌋ : ℚ) + 1 := Int.lt_floor_add_one q
  unfold rhe
  split_ifs with ha hb hc
  · rw [abs_le]
    constructor <;> linarith
  · rw [abs_le]
    push_cast
    constructor <;> linarith
  · have he : q - (⌊q⌋ : ℚ) = 1 / 2 := le_antisymm (not_lt.mp hb) (not_lt.mp ha)
    rw [abs_le]
    constructor <;> linarith
  · have he : q - (⌊q⌋ : ℚ) = 1 / 2 := le_antisymm (not_lt.mp hb) (not_lt.mp ha)
    rw [abs_le]
    push_cast
    constructor <;> linarith

theorem round2_close (x : ℚ) : |round2 x - x| ≤ 1 / 200 := by
  unfold round2
  have h := rhe_close (x * 100)
  rw [abs_le] at h ⊢
  constructor <;> [linarith [h.1]; linarith [h.2]]

theorem sum_round2_close :
    ∀ l : List ℚ, |(l.map round2).sum - l.sum| ≤ (l.length : ℚ) * (1 / 200) := by
  intro l
  induction l with
  | nil => simp
  | cons x xs ih =>
      simp only [List.map_cons, List.sum_cons, List.length_cons]
      have h1 := round2_close x
      have h2 : |(round2 x + (xs.map round2).sum) - (x + xs.sum)|
          ≤ |round2 x - x| + |(xs.map round2).sum - xs.sum| := by
        have h3 : (round2 x + (xs.map round2).sum) - (x + xs.sum)
            = (round2 x - x) + ((xs.map round2).sum - xs.sum) := by ring
        rw [h3]
        exact abs_add _ _
      have h4 : ((xs.length + 1 : ℕ) : ℚ) = (xs.length : ℚ) + 1 := by push_cast; ring
      rw [h4]
      calc |(round2 x + (xs.map round2).sum) - (x + xs.sum)|
          ≤ |round2 x - x| + |(xs.map round2).sum - xs.sum| := h2
        _ ≤ 1 / 200 + (xs.length : ℚ) * (1 / 200) := add_le_add h1 ih
        _ = ((xs.length : ℚ) + 1) * (1 / 200) := by ring

theorem pAdd_foldl :
    ∀ (l : List ℚ) (a : ℚ),
      (l.map (fun x => PFloat.num x)).foldl pAdd (.num a) = .num (a + l.sum) := by
  intro l
  induction l with
  | nil =>
      intro a
      simp [pAdd]
  | cons x xs ih =>
      intro a
      simp only [List.map_cons, List.foldl_cons, List.sum_cons]
      show (xs.map (fun x => PFloat.num x)).foldl pAdd (.num (a + x))
        = .num (a + (x + xs.sum))
      rw [ih (a + x), add_assoc]

theorem sum_map_mul (l : List Summ) (c : ℚ) :
    (l.map (fun g => g.line_total * c)).sum = (l.map Summ.line_total).sum * c := by
  induction l with
  | nil => simp
  | cons g gs ih =>
      simp only [List.map_cons, List.sum_cons, ih, add_mul]

/-- Claim C3 (amended): when total revenue over all groups is nonzero,
the rounded percentages across all groups sum to 100 within one half
rounding unit (0.005) per group, which is the honest bound the per-row
round(2) admits; when the total is zero the division produces NaN (or
infinite) percentages, not numbers summing to 100. -/
theorem C3_pct_sum (lines : List TxLine) (hne : lines ≠ [])
    (ht : totalRevS lines ≠ 0) :
    ∃ q, pctTotalSum lines = .num q
      ∧ |q - 100| ≤ (numGroups lines : ℚ) * (1 / 200) := by
  unfold pctTotalSum summaryWithPct
  rw [List.map_map]
  have hstep : ∀ g : Summ,
      (PctRow.pct ∘ fun g : Summ =>
        ({ sku := g.sku, name := g.name, quantity := g.quantity,
           line_total := g.line_total,
           pct := pround2 (pdivPct g.line_total (totalRevS lines)) } : PctRow)) g
        = PFloat.num (round2 (g.line_total / totalRevS lines * 100)) := by
    intro g
    show pround2 (pdivPct g.line_total (totalRevS lines)) = _
    unfold pdivPct
    rw [if_neg ht]
    rfl
  rw [List.map_congr_left (fun g _ => hstep g)]
  rw [show (fun g : Summ => PFloat.num (round2 (g.line_total / totalRevS lines * 100)))
      = (fun x : ℚ => PFloat.num x)
        ∘ (fun g : Summ => round2 (g.line_total / totalRevS lines * 100)) from rfl]
  rw [← List.map_map, pAdd_foldl]
  refine ⟨_, rfl, ?_⟩
  rw [zero_add]
  rw [show (fun g : Summ => round2 (g.line_total / totalRevS lines * 100))
      = round2 ∘ (fun g : Summ => g.line_total / totalRevS lines * 100) from rfl]
  rw [← List.map_map]
  have hs := sum_round2_close
    ((List.insertionSort revGe (productSummary lines)).map
      (fun g : Summ => g.line_total / totalRevS lines * 100))
  have hbase : ((List.insertionSort revGe (productSummary lines)).map
      (fun g : Summ => g.line_total / totalRevS lines * 100)).sum = 100 := by
    rw [show (fun g : Summ => g.line_total / totalRevS lines * 100)
        = (fun g : Summ => g.line_total * (100 / totalRevS lines)) from by
      funext g
      ring]
    rw [sum_map_mul]
    rw [show (List.map Summ.line_total
        (List.insertionSort revGe (productSummary lines))).sum
      = totalRevS lines from rfl]
    field_simp
  rw [hbase] at hs
  have hlen : (((List.insertionSort revGe (productSummary lines)).map
      (fun g : Summ => g.line_total / totalRevS lines * 100)).length : ℚ)
      = (numGroups lines : ℚ) := by
    rw [List.length_map,
      (List.perm_insertionSort revGe (productSummary lines)).length_eq]
    unfold productSummary numGroups
    rw [List.length_map]
  rw [hlen] at hs
  exact hs

/-- Counterexample for C3: with a single zero-revenue line the pct_total
column is NaN (0/0), so the percentages do not sum to a number at all;
and with thirteen groups totalling exactly 100 the individually rounded
percentages sum to 100.06, outside the claimed ±0.05 tolerance. -/
theorem C3_cex :
    pctTotalSum zeroLines = .nan ∧
    pctTotalSum driftLines = .num (5003 / 50) ∧
    ¬ (|(5003 : ℚ) / 50 - 100| ≤ 1 / 20) :=
  ⟨by decide, by decide, by decide⟩

/-- Witness for C3 at a concrete nonzero-total input. -/
theorem C3_witness :
    ∃ q, pctTotalSum twoLines = .num q
      ∧ |q - 100| ≤ (numGroups twoLines : ℚ) * (1 / 200) :=
  C3_pct_sum twoLines (by decide) (by decide)

theorem fmtRow_frame {r a : PRow} (h : fmtRow r = some a) :
    a.sku = r.sku ∧ a.producto = r.producto := by
  unfold fmtRow at h
  split at h
  · exact Option.noConfusion h
  split at h
  · exact Option.noConfusion h
  split at h
  · exact Option.noConfusion h
  injection h with h2
  subst h2
  exact ⟨rfl, rfl⟩

theorem fmtRows_length :
    ∀ (l rs : List PRow), fmtRows l = some rs → rs.length = l.length := by
  intro l
  induction l with
  | nil =>
      intro rs h
      injection h with h2
      subst h2
      rfl
  | cons r rest ih =>
      intro rs h
      unfold fmtRows at h
      split at h
      · exact Option.noConfusion h
      split at h
      · exact Option.noConfusion h
      case _ a ha bs hbs =>
        injection h with h2
        subst h2
        simp only [List.length_cons, ih bs hbs]

theorem fmtRows_frame :
    ∀ (l rs : List PRow), fmtRows l = some rs →
      ∀ (i : ℕ) (hi : i < rs.length) (hd : i < l.length),
        (rs.get ⟨i, hi⟩).sku = (l.get ⟨i, hd⟩).sku ∧
        (rs.get ⟨i, hi⟩).producto = (l.get ⟨i, hd⟩).producto := by
  intro l
  induction l with
  | nil =>
      intro rs h i hi hd
      exact absurd hd (Nat.not_lt_zero i)
  | cons r rest ih =>
      intro rs h i hi hd
      unfold fmtRows at h
      cases hfa : fmtRow r with
      | none => rw [hfa] at h; exact Option.noConfusion h
      | some a =>
          rw [hfa] at h
          cases hfb : fmtRows rest with
          | none => rw [hfb] at h; exact Option.noConfusion h
          | some bs =>
              rw [hfb] at h
              injection h with h2
              subst h2
              cases i with
              | zero => exact fmtRow_frame hfa
              | succ k =>
                  exact ih bs hfb k (Nat.lt_of_succ_lt_succ hi)
                    (Nat.lt_of_succ_lt_succ hd)

/-- Claim C7 (amended): format_product_table is not a pure
transformation of an unchanged argument: on the success path it mutates
the caller-owned frame in place (the returned frame is that same
object), replacing the three numeric columns with formatted strings; it
preserves the row count and the SKU and Producto columns, and leaves
the frame untouched only when it is empty. -/
theorem C7_format_mutates_in_place (df : PTable) (s t : PTable)
    (h : format_product_table df = some (s, t)) :
    t = s ∧ s.rows.length = df.rows.length ∧
    (∀ (i : ℕ) (hi : i < s.rows.length) (hd : i < df.rows.length),
      (s.rows.get ⟨i, hi⟩).sku = (df.rows.get ⟨i, hd⟩).sku ∧
      (s.rows.get ⟨i, hi⟩).producto = (df.rows.get ⟨i, hd⟩).producto) ∧
    (df.rows = [] → s = df) := by
  unfold format_product_table at h
  split at h
  case _ hemp =>
    injection h with h2
    have hs : df = s := congrArg Prod.fst h2
    have ht2 : df = t := congrArg Prod.snd h2
    subst hs
    refine ⟨ht2.symm, rfl, ?_, fun _ => rfl⟩
    intro i hi hd
    exact ⟨rfl, rfl⟩
  case _ hemp =>
    split at h
    · exact Option.noConfusion h
    case _ rs hrs =>
      injection h with h2
      have hs : (⟨rs⟩ : PTable) = s := congrArg Prod.fst h2
      have ht2 : (⟨rs⟩ : PTable) = t := congrArg Prod.snd h2
      subst hs
      refine ⟨ht2.symm, fmtRows_length df.rows rs hrs, ?_, ?_⟩
      · intro i hi hd
        exact fmtRows_frame df.rows rs hrs i hi hd
      · intro h0
        rw [h0] at hemp
        exact absurd rfl hemp

/-- Counterexample for C7: on the concrete Widget table the state of
the caller-owned frame after the call differs from the frame passed in
(the three numeric columns now hold strings), so format_product_table
does not leave its input argument unchanged. -/
theorem C7_cex :
    format_product_table widgetTable = some (widgetTableF, widgetTableF) ∧
      widgetTableF ≠ widgetTable :=
  ⟨by decide, by decide⟩

/-- Witness for C7 at the concrete Widget table. -/
theorem C7_witness :
    widgetTableF = widgetTableF ∧
    widgetTableF.rows.length = widgetTable.rows.length ∧
    (∀ (i : ℕ) (hi : i < widgetTableF.rows.length)
        (hd : i < widgetTable.rows.length),
      (widgetTableF.rows.get ⟨i, hi⟩).sku = (widgetTable.rows.get ⟨i, hd⟩).sku ∧
      (widgetTableF.rows.get ⟨i, hi⟩).producto
        = (widgetTable.rows.get ⟨i, hd⟩).producto) ∧
    (widgetTable.rows = [] → widgetTableF = widgetTable) :=
  C7_format_mutates_in_place widgetTable widgetTableF widgetTableF (by decide)
